import Mathlib

/-!
Verification of the SAML provider-config module (auth/provider_config.go) of
the firebase-admin-go repository: a shallow embedding of the nested key-path
store, the create/update request builders with their validation, the local
(pre-network) phase of the four client operations, and the transfer-object
mapper, together with theorems settling the specification's claims.

Go's dynamically typed `interface{}` values stored in the nested map are
embedded as the inductive `JValue`; Go maps become association lists (Go map
iteration order is unspecified, so list order carries no meaning and set-like
statements are used where the spec demands them).  A Go panic (a failed type
assertion such as `val.(map[string]interface{})`) is embedded as `Option.none`
in the result of the operation that would panic.
-/

set_option autoImplicit false

namespace FirebaseAuth

/-- Embeds the Go struct `idpCertificate` (one JSON field `x509Certificate`). -/
structure idpCertificate where
  x509Certificate : String
deriving DecidableEq

/-- The universe of values this module ever stores in a `nestedMap`
(`interface{}` in Go): strings, booleans, certificate lists, the untyped
`nil` (used by the update builder's display-name setter), and nested maps. -/
inductive JValue where
  | str : String → JValue
  | bool : Bool → JValue
  | certs : List idpCertificate → JValue
  | vnull : JValue
  | map : List (String × JValue) → JValue

/-- A Go `map[string]interface{}`, embedded as an association list. -/
abbrev NestedMap := List (String × JValue)

/-- The character-list worker of `splitChar`: split on every occurrence of
the separator, keeping empty chunks; the result is never empty. -/
def splitCharList (sep : Char) : List Char → List (List Char)
  | [] => [[]]
  | c :: rest =>
    let r := splitCharList sep rest
    if c = sep then [] :: r
    else
      match r with
      | [] => [[c]]
      | h :: t => (c :: h) :: t

/-- Embeds Go's `strings.Split` for a one-character separator (this module
only ever splits on "." and "/"): all occurrences separate, empty segments
are kept, and the result is never empty (`strings.Split("", ".")` is
`[""]`). -/
def splitChar (sep : Char) (s : String) : List String :=
  (splitCharList sep s.data).map (fun l => String.mk l)

/-- Embeds Go's `strings.HasPrefix`. -/
def hasPrefix (s pre : String) : Bool :=
  pre.data.isPrefixOf s.data

/-- Lookup in a Go map: `val, ok := curr[segment]` (the `ok` is `isSome`). -/
def lookupKey : NestedMap → String → Option JValue
  | [], _ => none
  | (k, v) :: rest, key => if k = key then some v else lookupKey rest key

/-- Update of a Go map: `curr[segment] = value` (replaces, keys stay unique). -/
def insertKey : NestedMap → String → JValue → NestedMap
  | [], key, v => [(key, v)]
  | (k, w) :: rest, key, v =>
    if k = key then (k, v) :: rest else (k, w) :: insertKey rest key v

namespace nestedMap

/-- The loop of `nestedMap.Get`, over the path already split on ".".
Go returns `(val, ok)` at the last segment or at the first absent segment;
on a present intermediate value the type assertion
`val.(map[string]interface{})` panics unless the value is a map: that panic
is the `none` result. -/
def getSegs : NestedMap → List String → Option (JValue × Bool)
  | _, [] => some (.vnull, false)
  | curr, [seg] =>
    match lookupKey curr seg with
    | some v => some (v, true)
    | none => some (.vnull, false)
  | curr, seg :: rest =>
    match lookupKey curr seg with
    | none => some (.vnull, false)
    | some (.map m) => getSegs m rest
    | some _ => none

/-- Embeds `nestedMap.Get`: split the key on ".", walk the levels.
`some (v, ok)` is Go's `(v, ok)` return; `none` is a panic. -/
def Get (nm : NestedMap) (key : String) : Option (JValue × Bool) :=
  getSegs nm (splitChar '.' key)

/-- Embeds `nestedMap.GetString`: on a found value the type assertion
`val.(string)` panics (`none`) unless the value is a string. -/
def GetString (nm : NestedMap) (key : String) : Option (String × Bool) :=
  match Get nm key with
  | none => none
  | some (v, true) =>
    match v with
    | .str s => some (s, true)
    | _ => none
  | some (_, false) => some ("", false)

/-- The loop of `nestedMap.Set`, over the path already split on ".".
Go writes the value at the last segment, reuses a present child map,
creates an absent one, and panics (`none`) when a present intermediate
value is not a map (the `child.(map[string]interface{})` assertion). -/
def setSegs : NestedMap → List String → JValue → Option NestedMap
  | curr, [], _ => some curr
  | curr, [seg], v => some (insertKey curr seg v)
  | curr, seg :: rest, v =>
    match lookupKey curr seg with
    | some (.map m) => (setSegs m rest v).map (fun m2 => insertKey curr seg (.map m2))
    | some _ => none
    | none => (setSegs [] rest v).map (fun m2 => insertKey curr seg (.map m2))

/-- Embeds `nestedMap.Set`: split the key on ".", walk/create levels, set
the terminal segment.  `none` is a panic. -/
def Set (nm : NestedMap) (key : String) (v : JValue) : Option NestedMap :=
  setSegs nm (splitChar '.' key) v

end nestedMap

/-- Embeds `buildMask`: flattens a nested map into the dotted paths of its
leaves (a child that is itself a map is recursed into, anything else is a
leaf).  List order is Go map iteration order, i.e. unspecified. -/
def buildMask : NestedMap → List String
  | [] => []
  | (k, .map child) :: rest =>
    ((buildMask child).map (fun item => k ++ "." ++ item)) ++ buildMask rest
  | (k, _) :: rest => k :: buildMask rest

/-- Embeds `nestedMap.UpdateMask` (whose Go error result is always nil). -/
def nestedMap.UpdateMask (nm : NestedMap) : Except String (List String) :=
  .ok (buildMask nm)

/-- The dotted field-path constants of the module. -/
def idpEntityIDKey : String := "idpConfig.idpEntityId"

def ssoURLKey : String := "idpConfig.ssoUrl"

def signRequestKey : String := "idpConfig.signRequest"

def idpCertsKey : String := "idpConfig.idpCertificates"

def spEntityIDKey : String := "spConfig.spEntityId"

def callbackURIKey : String := "spConfig.callbackUri"

def displayNameKey : String := "displayName"

def enabledKey : String := "enabled"

def providerConfigEndpoint : String := "https://identitytoolkit.googleapis.com/v2beta1"

/-- The local (pre-network) errors the module produces, one constructor per
distinct Go error value. -/
inductive AuthError where
  | invalidSAMLProviderID (id : String)
  | noParamsCreate
  | noParamsUpdate
  | idpEntityIDEmpty
  | ssoURLEmpty
  | ssoURLParse
  | certsEmpty
  | certsContainEmpty
  | rpEntityIDEmpty
  | callbackURLEmpty
  | callbackURLParse
  | configNil
  | projectIDMissing
  | updateMaskFailed
deriving DecidableEq

/-- The Go error text of each error.  For the parse failures and the
invalid-id error Go appends detail (`%v` of the url error, `%q` quoting of
the id) which the embedding elides or simplifies to plain quoting. -/
def AuthError.message : AuthError → String
  | .invalidSAMLProviderID id => "invalid SAML provider id: \"" ++ id ++ "\""
  | .noParamsCreate => "no parameters specified in the create request"
  | .noParamsUpdate => "no parameters specified in the update request"
  | .idpEntityIDEmpty => "IDPEntityID must not be empty"
  | .ssoURLEmpty => "SSOURL must not be empty"
  | .ssoURLParse => "failed to parse SSOURL"
  | .certsEmpty => "X509Certificates must not be empty"
  | .certsContainEmpty => "X509Certificates must not contain empty strings"
  | .rpEntityIDEmpty => "RPEntityID must not be empty"
  | .callbackURLEmpty => "CallbackURL must not be empty"
  | .callbackURLParse => "failed to parse CallbackURL"
  | .configNil => "config must not be nil"
  | .projectIDMissing => "project id not available"
  | .updateMaskFailed => "failed to construct update mask"

/-- Modelled from the spec: Go's `url.ParseRequestURI` is standard-library
code external to this repository; the spec asks for "a syntactically valid
absolute URL".  Acceptance is modelled as: the string is nonempty and either
is a rooted path (starts with "/") or carries a nonempty scheme before
"://". -/
def schemeSepAux : List Char → Bool
  | ':' :: '/' :: '/' :: _ => true
  | _ :: rest => schemeSepAux rest
  | [] => false

def parseRequestURI (s : String) : Bool :=
  (s != "") && (hasPrefix s "/" || schemeSepAux s.data)

/-- Embeds `validateSAMLConfigID`: only the prefix "saml." is checked. -/
def validateSAMLConfigID (id : String) : Except AuthError Unit :=
  if hasPrefix id "saml." then .ok () else .error (.invalidSAMLProviderID id)

/-- Embeds the struct `SAMLProviderConfigToCreate` (Go zero value: empty id,
nil params map). -/
structure SAMLProviderConfigToCreate where
  id : String := ""
  params : NestedMap := []

/-- Embeds `SAMLProviderConfigToCreate.set` (the nil map is created lazily;
the `[]` default already covers that).  `none` is a panic inside
`nestedMap.Set`. -/
def SAMLProviderConfigToCreate.set (c : SAMLProviderConfigToCreate) (key : String)
    (v : JValue) : Option SAMLProviderConfigToCreate :=
  (nestedMap.Set c.params key v).map (fun p => { c with params := p })

/-- Embeds the fluent `ID` setter. -/
def SAMLProviderConfigToCreate.ID (c : SAMLProviderConfigToCreate) (id : String) :
    SAMLProviderConfigToCreate :=
  { c with id := id }

/-- Embeds the fluent `IDPEntityID` setter. -/
def SAMLProviderConfigToCreate.IDPEntityID (c : SAMLProviderConfigToCreate)
    (entityID : String) : Option SAMLProviderConfigToCreate :=
  c.set idpEntityIDKey (.str entityID)

/-- Embeds the fluent `SSOURL` setter. -/
def SAMLProviderConfigToCreate.SSOURL (c : SAMLProviderConfigToCreate)
    (url : String) : Option SAMLProviderConfigToCreate :=
  c.set ssoURLKey (.str url)

/-- Embeds the fluent `RequestSigningEnabled` setter. -/
def SAMLProviderConfigToCreate.RequestSigningEnabled (c : SAMLProviderConfigToCreate)
    (enabled : Bool) : Option SAMLProviderConfigToCreate :=
  c.set signRequestKey (.bool enabled)

/-- Embeds the fluent `X509Certificates` setter: the strings are wrapped in
`idpCertificate` values (an empty input yields Go's nil slice, here `[]`). -/
def SAMLProviderConfigToCreate.X509Certificates (c : SAMLProviderConfigToCreate)
    (certs : List String) : Option SAMLProviderConfigToCreate :=
  c.set idpCertsKey (.certs (certs.map idpCertificate.mk))

/-- Embeds the fluent `RPEntityID` setter. -/
def SAMLProviderConfigToCreate.RPEntityID (c : SAMLProviderConfigToCreate)
    (entityID : String) : Option SAMLProviderConfigToCreate :=
  c.set spEntityIDKey (.str entityID)

/-- Embeds the fluent `CallbackURL` setter. -/
def SAMLProviderConfigToCreate.CallbackURL (c : SAMLProviderConfigToCreate)
    (url : String) : Option SAMLProviderConfigToCreate :=
  c.set callbackURIKey (.str url)

/-- Embeds the fluent `DisplayName` setter (create builder: the string is
stored as given, empty or not). -/
def SAMLProviderConfigToCreate.DisplayName (c : SAMLProviderConfigToCreate)
    (name : String) : Option SAMLProviderConfigToCreate :=
  c.set displayNameKey (.str name)

/-- Embeds the fluent `Enabled` setter. -/
def SAMLProviderConfigToCreate.Enabled (c : SAMLProviderConfigToCreate)
    (enabled : Bool) : Option SAMLProviderConfigToCreate :=
  c.set enabledKey (.bool enabled)

/-- Embeds `SAMLProviderConfigToCreate.buildRequest`, statement by statement:
the id prefix check, the non-empty-store check, then the field checks in
source order with the first failing check's error returned.  `none` is a
panic inside one of the store reads (a failed `interface{}` type
assertion). -/
def SAMLProviderConfigToCreate.buildRequest (c : SAMLProviderConfigToCreate) :
    Option (Except AuthError (NestedMap × String)) :=
  match validateSAMLConfigID c.id with
  | .error e => some (.error e)
  | .ok _ =>
    if c.params.length = 0 then some (.error .noParamsCreate)
    else
      match nestedMap.GetString c.params idpEntityIDKey with
      | none => none
      | some (v1, ok1) =>
        if !ok1 || v1 == "" then some (.error .idpEntityIDEmpty)
        else
          match nestedMap.GetString c.params ssoURLKey with
          | none => none
          | some (v2, ok2) =>
            if !ok2 || v2 == "" then some (.error .ssoURLEmpty)
            else if !(parseRequestURI v2) then some (.error .ssoURLParse)
            else
              match nestedMap.Get c.params idpCertsKey with
              | none => none
              | some (cv, cok) =>
                if !cok then some (.error .certsEmpty)
                else
                  match cv with
                  | .certs l =>
                    if l.length = 0 then some (.error .certsEmpty)
                    else if l.any (fun cert => cert.x509Certificate == "") then
                      some (.error .certsContainEmpty)
                    else
                      match nestedMap.GetString c.params spEntityIDKey with
                      | none => none
                      | some (v3, ok3) =>
                        if !ok3 || v3 == "" then some (.error .rpEntityIDEmpty)
                        else
                          match nestedMap.GetString c.params callbackURIKey with
                          | none => none
                          | some (v4, ok4) =>
                            if !ok4 || v4 == "" then some (.error .callbackURLEmpty)
                            else if !(parseRequestURI v4) then
                              some (.error .callbackURLParse)
                            else some (.ok (c.params, c.id))
                  | _ => none

/-- Embeds the struct `SAMLProviderConfigToUpdate` (Go zero value: nil
params map). -/
structure SAMLProviderConfigToUpdate where
  params : NestedMap := []

/-- Embeds `SAMLProviderConfigToUpdate.set`. -/
def SAMLProviderConfigToUpdate.set (c : SAMLProviderConfigToUpdate) (key : String)
    (v : JValue) : Option SAMLProviderConfigToUpdate :=
  (nestedMap.Set c.params key v).map (fun p => { c with params := p })

/-- Embeds the update builder's fluent `IDPEntityID` setter. -/
def SAMLProviderConfigToUpdate.IDPEntityID (c : SAMLProviderConfigToUpdate)
    (entityID : String) : Option SAMLProviderConfigToUpdate :=
  c.set idpEntityIDKey (.str entityID)

/-- Embeds the update builder's fluent `SSOURL` setter. -/
def SAMLProviderConfigToUpdate.SSOURL (c : SAMLProviderConfigToUpdate)
    (url : String) : Option SAMLProviderConfigToUpdate :=
  c.set ssoURLKey (.str url)

/-- Embeds the update builder's fluent `RequestSigningEnabled` setter. -/
def SAMLProviderConfigToUpdate.RequestSigningEnabled (c : SAMLProviderConfigToUpdate)
    (enabled : Bool) : Option SAMLProviderConfigToUpdate :=
  c.set signRequestKey (.bool enabled)

/-- Embeds the update builder's fluent `X509Certificates` setter. -/
def SAMLProviderConfigToUpdate.X509Certificates (c : SAMLProviderConfigToUpdate)
    (certs : List String) : Option SAMLProviderConfigToUpdate :=
  c.set idpCertsKey (.certs (certs.map idpCertificate.mk))

/-- Embeds the update builder's fluent `RPEntityID` setter. -/
def SAMLProviderConfigToUpdate.RPEntityID (c : SAMLProviderConfigToUpdate)
    (entityID : String) : Option SAMLProviderConfigToUpdate :=
  c.set spEntityIDKey (.str entityID)

/-- Embeds the update builder's fluent `CallbackURL` setter. -/
def SAMLProviderConfigToUpdate.CallbackURL (c : SAMLProviderConfigToUpdate)
    (url : String) : Option SAMLProviderConfigToUpdate :=
  c.set callbackURIKey (.str url)

/-- Embeds the update builder's fluent `DisplayName` setter: an empty string
stores Go's untyped nil (the explicit "clear the field" marker, `.vnull`),
a nonempty string stores the string itself. -/
def SAMLProviderConfigToUpdate.DisplayName (c : SAMLProviderConfigToUpdate)
    (name : String) : Option SAMLProviderConfigToUpdate :=
  c.set displayNameKey (if name == "" then .vnull else .str name)

/-- Embeds the update builder's fluent `Enabled` setter. -/
def SAMLProviderConfigToUpdate.Enabled (c : SAMLProviderConfigToUpdate)
    (enabled : Bool) : Option SAMLProviderConfigToUpdate :=
  c.set enabledKey (.bool enabled)

/-- The tail of `SAMLProviderConfigToUpdate.buildRequest` after the
certificate block: the conditional RP-entity and callback checks and the
success return (factored out because the Go certificate block rejoins this
code whether or not the certificates key is present). -/
def updateSPAndCallback (p : NestedMap) : Option (Except AuthError NestedMap) :=
  match nestedMap.GetString p spEntityIDKey with
  | none => none
  | some (v3, ok3) =>
    if ok3 && v3 == "" then some (.error .rpEntityIDEmpty)
    else
      match nestedMap.GetString p callbackURIKey with
      | none => none
      | some (v4, ok4) =>
        if ok4 && v4 == "" then some (.error .callbackURLEmpty)
        else if ok4 && !(parseRequestURI v4) then some (.error .callbackURLParse)
        else some (.ok p)

/-- Embeds `SAMLProviderConfigToUpdate.buildRequest`: the non-empty-store
check, then each field check applied only when that field is present in the
store (`ok`), in source order with the first failing check's error returned.
`none` is a panic inside one of the store reads. -/
def SAMLProviderConfigToUpdate.buildRequest (c : SAMLProviderConfigToUpdate) :
    Option (Except AuthError NestedMap) :=
  if c.params.length = 0 then some (.error .noParamsUpdate)
  else
    match nestedMap.GetString c.params idpEntityIDKey with
    | none => none
    | some (v1, ok1) =>
      if ok1 && v1 == "" then some (.error .idpEntityIDEmpty)
      else
        match nestedMap.GetString c.params ssoURLKey with
        | none => none
        | some (v2, ok2) =>
          if ok2 && v2 == "" then some (.error .ssoURLEmpty)
          else if ok2 && !(parseRequestURI v2) then some (.error .ssoURLParse)
          else
            match nestedMap.Get c.params idpCertsKey with
            | none => none
            | some (cv, cok) =>
              if cok then
                match cv with
                | .certs l =>
                  if l.length = 0 then some (.error .certsEmpty)
                  else if l.any (fun cert => cert.x509Certificate == "") then
                    some (.error .certsContainEmpty)
                  else updateSPAndCallback c.params
                | _ => none
              else updateSPAndCallback c.params

/-- The HTTP request this module hands to the external transport: method,
URL, optional JSON body, query parameters (the transport itself, retries and
auth headers are external collaborators and are not modelled). -/
structure HTTPRequest where
  method : String
  url : String
  body : Option NestedMap := none
  query : List (String × String) := []

/-- Embeds the fields of `providerConfigClient` the local phase reads. -/
structure providerConfigClient where
  endpoint : String := providerConfigEndpoint
  projectID : String

/-- Embeds `providerConfigClient.makeRequest` up to the point it hands the
request to the transport: the project-id presence check and the URL
prefixing `endpoint + "/projects/" + projectID + url`. -/
def providerConfigClient.makeRequestLocal (c : providerConfigClient)
    (req : HTTPRequest) : Except AuthError HTTPRequest :=
  if c.projectID == "" then .error .projectIDMissing
  else .ok { req with url := c.endpoint ++ "/projects/" ++ c.projectID ++ req.url }

/-- Embeds the local phase of `providerConfigClient.SAMLProviderConfig`
(get): id validation, then the GET request handed to the transport.  The
transport call and the response mapping are external. -/
def providerConfigClient.SAMLProviderConfigLocal (c : providerConfigClient)
    (id : String) : Except AuthError HTTPRequest :=
  match validateSAMLConfigID id with
  | .error e => .error e
  | .ok _ => c.makeRequestLocal { method := "GET", url := "/inboundSamlConfigs/" ++ id }

/-- Embeds the local phase of `providerConfigClient.DeleteSAMLProviderConfig`:
id validation, then the DELETE request handed to the transport. -/
def providerConfigClient.DeleteSAMLProviderConfigLocal (c : providerConfigClient)
    (id : String) : Except AuthError HTTPRequest :=
  match validateSAMLConfigID id with
  | .error e => .error e
  | .ok _ => c.makeRequestLocal { method := "DELETE", url := "/inboundSamlConfigs/" ++ id }

/-- Embeds the local phase of `providerConfigClient.CreateSAMLProviderConfig`
for a non-nil builder (Go's nil-pointer check has no Lean counterpart since
the builder is passed by value): `buildRequest`, then the POST request with
the id as the `inboundSamlConfigId` query parameter and the store as body. -/
def providerConfigClient.CreateSAMLProviderConfigLocal (c : providerConfigClient)
    (config : SAMLProviderConfigToCreate) : Option (Except AuthError HTTPRequest) :=
  match config.buildRequest with
  | none => none
  | some (.error e) => some (.error e)
  | some (.ok (body, id)) =>
    some (c.makeRequestLocal
      { method := "POST", url := "/inboundSamlConfigs", body := some body,
        query := [("inboundSamlConfigId", id)] })

/-- Embeds the local phase of `providerConfigClient.UpdateSAMLProviderConfig`
for a non-nil builder: id validation, `buildRequest`, the update mask, then
the PATCH request with the comma-joined mask as the `updateMask` query
parameter and the store as body. -/
def providerConfigClient.UpdateSAMLProviderConfigLocal (c : providerConfigClient)
    (id : String) (config : SAMLProviderConfigToUpdate) :
    Option (Except AuthError HTTPRequest) :=
  match validateSAMLConfigID id with
  | .error e => some (.error e)
  | .ok _ =>
    match config.buildRequest with
    | none => none
    | some (.error e) => some (.error e)
    | some (.ok body) =>
      match nestedMap.UpdateMask body with
      | .error _ => some (.error .updateMaskFailed)
      | .ok mask =>
        some (c.makeRequestLocal
          { method := "PATCH", url := "/inboundSamlConfigs/" ++ id, body := some body,
            query := [("updateMask", String.intercalate "," mask)] })

/-- Embeds the nested `IDPConfig` part of `samlProviderConfigDAO`. -/
structure idpConfigDAO where
  idpEntityId : String
  ssoUrl : String
  idpCertificates : List idpCertificate
  signRequest : Bool

/-- Embeds the nested `SPConfig` part of `samlProviderConfigDAO`. -/
structure spConfigDAO where
  spEntityId : String
  callbackUri : String

/-- Embeds the transfer object `samlProviderConfigDAO` (the wire JSON
shape). -/
structure samlProviderConfigDAO where
  name : String
  idpConfig : idpConfigDAO
  spConfig : spConfigDAO
  displayName : String
  enabled : Bool

/-- Embeds the read model `SAMLProviderConfig`. -/
structure SAMLProviderConfig where
  id : String
  displayName : String
  enabled : Bool
  idpEntityID : String
  ssoURL : String
  requestSigningEnabled : Bool
  x509Certificates : List String
  rpEntityID : String
  callbackURL : String
deriving DecidableEq

/-- Embeds `extractResourceID`: the last segment of the resource name split
on "/" (`splitChar` never returns an empty list, so the default of
`getLastD` is never used, mirroring Go's `segments[len(segments)-1]`). -/
def extractResourceID (name : String) : String :=
  (splitChar '/' name).getLastD ""

/-- Embeds `samlProviderConfigDAO.toSAMLProviderConfig`: field copies, the
certificate list flattened in order, the id extracted from the resource
name. -/
def samlProviderConfigDAO.toSAMLProviderConfig (dao : samlProviderConfigDAO) :
    SAMLProviderConfig :=
  { id := extractResourceID dao.name
    displayName := dao.displayName
    enabled := dao.enabled
    idpEntityID := dao.idpConfig.idpEntityId
    ssoURL := dao.idpConfig.ssoUrl
    requestSigningEnabled := dao.idpConfig.signRequest
    x509Certificates := dao.idpConfig.idpCertificates.map (fun cert => cert.x509Certificate)
    rpEntityID := dao.spConfig.spEntityId
    callbackURL := dao.spConfig.callbackUri }

/-! ### Supporting definitions for the theorems -/

/-- A present intermediate segment of the path is bound to a value that is
not itself a nested map: the walk of `Get` (and of `Set`) fails its
`interface{}` type assertion — i.e. panics — exactly then. -/
def badIntermediate : NestedMap → List String → Bool
  | _, [] => false
  | _, [_] => false
  | nm, seg :: rest =>
    match lookupKey nm seg with
    | some (.map m) => badIntermediate m rest
    | some _ => true
    | none => false

/-- The walk of `Get` reaches an absent intermediate segment (before any
failing type assertion). -/
def absentIntermediate : NestedMap → List String → Bool
  | _, [] => false
  | _, [_] => false
  | nm, seg :: rest =>
    match lookupKey nm seg with
    | some (.map m) => absentIntermediate m rest
    | some _ => false
    | none => true

/-- Recursively duplicate-free keys: every Go map has unique keys, so every
store the embedding speaks about satisfies this (an association list that
repeats a key represents no Go map). -/
def nodupNested : NestedMap → Bool
  | [] => true
  | (k, .map child) :: rest =>
    rest.all (fun p => p.1 != k) && nodupNested child && nodupNested rest
  | (k, _) :: rest => rest.all (fun p => p.1 != k) && nodupNested rest

/-- The nonempty segment list addresses a leaf present in the store: every
proper prefix hits a nested map and the last segment hits a stored value
that is not itself a nested map. -/
def isLeafPath : NestedMap → List String → Bool
  | _, [] => false
  | nm, [seg] =>
    match lookupKey nm seg with
    | some (.map _) => false
    | some _ => true
    | none => false
  | nm, seg :: rest =>
    match lookupKey nm seg with
    | some (.map m) => isLeafPath m rest
    | _ => false

/-- Joins segments with "." (the inverse of the dot-splitting walk; the
shape `buildMask` produces). -/
def joinDot : List String → String
  | [] => ""
  | [s] => s
  | s :: rest => s ++ "." ++ joinDot rest

/-- The first failing check of a list wins (the sequential early-return
structure of `buildRequest`). -/
def firstFailure : List (Option AuthError) → Option AuthError
  | [] => none
  | some e :: _ => some e
  | none :: rest => firstFailure rest

/-- The five store reads `buildRequest` performs return without a panic:
every builder reachable through the public setters satisfies this, since
each setter stores a value of the type its key's read asserts. -/
def ReadsOK (p : NestedMap) : Prop :=
  (∃ r, nestedMap.GetString p idpEntityIDKey = some r) ∧
  (∃ r, nestedMap.GetString p ssoURLKey = some r) ∧
  (∃ r, nestedMap.GetString p spEntityIDKey = some r) ∧
  (∃ r, nestedMap.GetString p callbackURIKey = some r) ∧
  (∃ v b, nestedMap.Get p idpCertsKey = some (v, b) ∧
    (b = true → ∃ l, v = JValue.certs l))

/-- Validation step of the create flow, in isolation: the id prefix. -/
def chkCreateID (c : SAMLProviderConfigToCreate) : Option AuthError :=
  if hasPrefix c.id "saml." then none else some (.invalidSAMLProviderID c.id)

/-- Validation step of the create flow, in isolation: a non-empty store. -/
def chkCreateNonEmpty (c : SAMLProviderConfigToCreate) : Option AuthError :=
  if c.params.length = 0 then some .noParamsCreate else none

/-- Validation step of the update flow, in isolation: a non-empty store. -/
def chkUpdateNonEmpty (c : SAMLProviderConfigToUpdate) : Option AuthError :=
  if c.params.length = 0 then some .noParamsUpdate else none

/-- Required-string validation step in isolation: the key must be present
with a nonempty string (create flow). -/
def chkRequiredString (p : NestedMap) (key : String) (e : AuthError) : Option AuthError :=
  match nestedMap.GetString p key with
  | some (v, true) => if v == "" then some e else none
  | _ => some e

/-- Required-URL validation step in isolation: present, nonempty and
parseable (create flow). -/
def chkRequiredURL (p : NestedMap) (key : String) (eEmpty eParse : AuthError) :
    Option AuthError :=
  match nestedMap.GetString p key with
  | some (v, true) =>
    if v == "" then some eEmpty
    else if !(parseRequestURI v) then some eParse
    else none
  | _ => some eEmpty

/-- Required-certificates validation step in isolation: present, nonempty,
no empty certificate string (create flow). -/
def chkRequiredCerts (p : NestedMap) : Option AuthError :=
  match nestedMap.Get p idpCertsKey with
  | some (.certs l, true) =>
    if l.length = 0 then some .certsEmpty
    else if l.any (fun cert => cert.x509Certificate == "") then some .certsContainEmpty
    else none
  | some (_, false) => some .certsEmpty
  | _ => some .certsEmpty

/-- Optional-string validation step in isolation: checked only when the key
is present in the store (update flow). -/
def chkOptionalString (p : NestedMap) (key : String) (e : AuthError) : Option AuthError :=
  match nestedMap.GetString p key with
  | some (v, true) => if v == "" then some e else none
  | _ => none

/-- Optional-URL validation step in isolation (update flow). -/
def chkOptionalURL (p : NestedMap) (key : String) (eEmpty eParse : AuthError) :
    Option AuthError :=
  match nestedMap.GetString p key with
  | some (v, true) =>
    if v == "" then some eEmpty
    else if !(parseRequestURI v) then some eParse
    else none
  | _ => none

/-- Optional-certificates validation step in isolation (update flow). -/
def chkOptionalCerts (p : NestedMap) : Option AuthError :=
  match nestedMap.Get p idpCertsKey with
  | some (.certs l, true) =>
    if l.length = 0 then some .certsEmpty
    else if l.any (fun cert => cert.x509Certificate == "") then some .certsContainEmpty
    else none
  | some (_, true) => some .certsEmpty
  | some (_, false) => none
  | none => none

/-- The seven create-validation steps in their source order. -/
def createChecks (c : SAMLProviderConfigToCreate) : List (Option AuthError) :=
  [chkCreateID c, chkCreateNonEmpty c,
   chkRequiredString c.params idpEntityIDKey .idpEntityIDEmpty,
   chkRequiredURL c.params ssoURLKey .ssoURLEmpty .ssoURLParse,
   chkRequiredCerts c.params,
   chkRequiredString c.params spEntityIDKey .rpEntityIDEmpty,
   chkRequiredURL c.params callbackURIKey .callbackURLEmpty .callbackURLParse]

/-- The six update-validation steps in their source order. -/
def updateChecks (c : SAMLProviderConfigToUpdate) : List (Option AuthError) :=
  [chkUpdateNonEmpty c,
   chkOptionalString c.params idpEntityIDKey .idpEntityIDEmpty,
   chkOptionalURL c.params ssoURLKey .ssoURLEmpty .ssoURLParse,
   chkOptionalCerts c.params,
   chkOptionalString c.params spEntityIDKey .rpEntityIDEmpty,
   chkOptionalURL c.params callbackURIKey .callbackURLEmpty .callbackURLParse]

/-- Shape invariant of the inner `idpConfig` map as the setters build it:
the three keys `buildRequest` reads with a type assertion hold values of the
asserted type whenever present. -/
def WFIdpMap (m : NestedMap) : Prop :=
  (∀ v, lookupKey m "idpEntityId" = some v → ∃ s, v = JValue.str s) ∧
  (∀ v, lookupKey m "ssoUrl" = some v → ∃ s, v = JValue.str s) ∧
  (∀ v, lookupKey m "idpCertificates" = some v → ∃ l, v = JValue.certs l)

/-- Shape invariant of the inner `spConfig` map as the setters build it. -/
def WFSpMap (m : NestedMap) : Prop :=
  (∀ v, lookupKey m "spEntityId" = some v → ∃ s, v = JValue.str s) ∧
  (∀ v, lookupKey m "callbackUri" = some v → ∃ s, v = JValue.str s)

/-- Shape invariant of a builder's store: the two intermediate keys hold
nested maps (of the right inner shape) whenever present.  The empty store
satisfies it and every setter preserves it. -/
def WFParams (p : NestedMap) : Prop :=
  (∀ v, lookupKey p "idpConfig" = some v → ∃ m, v = JValue.map m ∧ WFIdpMap m) ∧
  (∀ v, lookupKey p "spConfig" = some v → ∃ m, v = JValue.map m ∧ WFSpMap m)

/-- The create builders reachable through the public API: the zero value,
then any sequence of fluent setter calls (each hypothesis records a call
that returned without a panic). -/
inductive ReachableCreate : SAMLProviderConfigToCreate → Prop where
  | init : ReachableCreate ⟨"", []⟩
  | setID (c : SAMLProviderConfigToCreate) (id : String) :
      ReachableCreate c → ReachableCreate (c.ID id)
  | setIDPEntityID (c c2 : SAMLProviderConfigToCreate) (s : String) :
      ReachableCreate c → c.IDPEntityID s = some c2 → ReachableCreate c2
  | setSSOURL (c c2 : SAMLProviderConfigToCreate) (s : String) :
      ReachableCreate c → c.SSOURL s = some c2 → ReachableCreate c2
  | setRequestSigningEnabled (c c2 : SAMLProviderConfigToCreate) (b : Bool) :
      ReachableCreate c → c.RequestSigningEnabled b = some c2 → ReachableCreate c2
  | setX509Certificates (c c2 : SAMLProviderConfigToCreate) (certs : List String) :
      ReachableCreate c → c.X509Certificates certs = some c2 → ReachableCreate c2
  | setRPEntityID (c c2 : SAMLProviderConfigToCreate) (s : String) :
      ReachableCreate c → c.RPEntityID s = some c2 → ReachableCreate c2
  | setCallbackURL (c c2 : SAMLProviderConfigToCreate) (s : String) :
      ReachableCreate c → c.CallbackURL s = some c2 → ReachableCreate c2
  | setDisplayName (c c2 : SAMLProviderConfigToCreate) (s : String) :
      ReachableCreate c → c.DisplayName s = some c2 → ReachableCreate c2
  | setEnabled (c c2 : SAMLProviderConfigToCreate) (b : Bool) :
      ReachableCreate c → c.Enabled b = some c2 → ReachableCreate c2

/-- The update builders reachable through the public API. -/
inductive ReachableUpdate : SAMLProviderConfigToUpdate → Prop where
  | init : ReachableUpdate ⟨[]⟩
  | setIDPEntityID (c c2 : SAMLProviderConfigToUpdate) (s : String) :
      ReachableUpdate c → c.IDPEntityID s = some c2 → ReachableUpdate c2
  | setSSOURL (c c2 : SAMLProviderConfigToUpdate) (s : String) :
      ReachableUpdate c → c.SSOURL s = some c2 → ReachableUpdate c2
  | setRequestSigningEnabled (c c2 : SAMLProviderConfigToUpdate) (b : Bool) :
      ReachableUpdate c → c.RequestSigningEnabled b = some c2 → ReachableUpdate c2
  | setX509Certificates (c c2 : SAMLProviderConfigToUpdate) (certs : List String) :
      ReachableUpdate c → c.X509Certificates certs = some c2 → ReachableUpdate c2
  | setRPEntityID (c c2 : SAMLProviderConfigToUpdate) (s : String) :
      ReachableUpdate c → c.RPEntityID s = some c2 → ReachableUpdate c2
  | setCallbackURL (c c2 : SAMLProviderConfigToUpdate) (s : String) :
      ReachableUpdate c → c.CallbackURL s = some c2 → ReachableUpdate c2
  | setDisplayName (c c2 : SAMLProviderConfigToUpdate) (s : String) :
      ReachableUpdate c → c.DisplayName s = some c2 → ReachableUpdate c2
  | setEnabled (c c2 : SAMLProviderConfigToUpdate) (b : Bool) :
      ReachableUpdate c → c.Enabled b = some c2 → ReachableUpdate c2

/-! ### Concrete stores and builders used by the theorems -/

/-- The store of a create builder with every required field set (and valid
URLs), as the setters produce it. -/
def fullCreateParams : NestedMap :=
  [("idpConfig", .map
      [("idpEntityId", .str "IDP_ENTITY_ID"),
       ("ssoUrl", .str "https://example.com/login"),
       ("idpCertificates", .certs [⟨"CERT"⟩])]),
   ("spConfig", .map
      [("spEntityId", .str "RP_ENTITY_ID"),
       ("callbackUri", .str "https://example.com/callback")])]

/-- `fullCreateParams` with the IDP entity id omitted. -/
def createParamsNoIdpEntity : NestedMap :=
  [("idpConfig", .map
      [("ssoUrl", .str "https://example.com/login"),
       ("idpCertificates", .certs [⟨"CERT"⟩])]),
   ("spConfig", .map
      [("spEntityId", .str "RP_ENTITY_ID"),
       ("callbackUri", .str "https://example.com/callback")])]

/-- `fullCreateParams` with the SSO URL omitted. -/
def createParamsNoSSOURL : NestedMap :=
  [("idpConfig", .map
      [("idpEntityId", .str "IDP_ENTITY_ID"),
       ("idpCertificates", .certs [⟨"CERT"⟩])]),
   ("spConfig", .map
      [("spEntityId", .str "RP_ENTITY_ID"),
       ("callbackUri", .str "https://example.com/callback")])]

/-- `fullCreateParams` with the certificate list omitted. -/
def createParamsNoCerts : NestedMap :=
  [("idpConfig", .map
      [("idpEntityId", .str "IDP_ENTITY_ID"),
       ("ssoUrl", .str "https://example.com/login")]),
   ("spConfig", .map
      [("spEntityId", .str "RP_ENTITY_ID"),
       ("callbackUri", .str "https://example.com/callback")])]

/-- `fullCreateParams` with the RP entity id omitted. -/
def createParamsNoRPEntity : NestedMap :=
  [("idpConfig", .map
      [("idpEntityId", .str "IDP_ENTITY_ID"),
       ("ssoUrl", .str "https://example.com/login"),
       ("idpCertificates", .certs [⟨"CERT"⟩])]),
   ("spConfig", .map
      [("callbackUri", .str "https://example.com/callback")])]

/-- `fullCreateParams` with the callback URL omitted. -/
def createParamsNoCallback : NestedMap :=
  [("idpConfig", .map
      [("idpEntityId", .str "IDP_ENTITY_ID"),
       ("ssoUrl", .str "https://example.com/login"),
       ("idpCertificates", .certs [⟨"CERT"⟩])]),
   ("spConfig", .map
      [("spEntityId", .str "RP_ENTITY_ID")])]

/-- `fullCreateParams` with an empty certificate list (what
`X509Certificates([])` or `X509Certificates(nil)` stores). -/
def createParamsEmptyCerts : NestedMap :=
  [("idpConfig", .map
      [("idpEntityId", .str "IDP_ENTITY_ID"),
       ("ssoUrl", .str "https://example.com/login"),
       ("idpCertificates", .certs [])]),
   ("spConfig", .map
      [("spEntityId", .str "RP_ENTITY_ID"),
       ("callbackUri", .str "https://example.com/callback")])]

/-- The store of an update builder on which only `RequestSigningEnabled`
was called. -/
def signOnlyParams : NestedMap :=
  [("idpConfig", .map [("signRequest", .bool true)])]

/-- The store of an update builder on which only `DisplayName("")` was
called: the explicit null marker under the display-name key. -/
def displayNameOnlyParams : NestedMap :=
  [("displayName", .vnull)]

/-- The store of an update builder on which only `X509Certificates` with an
empty (or nil) slice was called. -/
def emptyCertsOnlyParams : NestedMap :=
  [("idpConfig", .map [("idpCertificates", .certs [])])]

/-- A representative decoded transfer object. -/
def exampleDAO : samlProviderConfigDAO :=
  { name := "projects/p1/inboundSamlConfigs/saml.provider1"
    idpConfig :=
      { idpEntityId := "IDP_ENTITY_ID"
        ssoUrl := "https://example.com/login"
        idpCertificates := [⟨"CERT1"⟩, ⟨"CERT2"⟩]
        signRequest := true }
    spConfig :=
      { spEntityId := "RP_ENTITY_ID"
        callbackUri := "https://example.com/callback" }
    displayName := "samlProviderName"
    enabled := true }

/-! ### Helper lemmas -/

theorem badIntermediate_nil : ∀ segs : List String, badIntermediate [] segs = false := by
  intro segs
  cases segs with
  | nil => rfl
  | cons s rest => cases rest <;> simp [badIntermediate, lookupKey]

theorem getSegs_eq_none_iff : ∀ (segs : List String) (nm : NestedMap),
    nestedMap.getSegs nm segs = none ↔ badIntermediate nm segs = true := by
  intro segs
  induction segs with
  | nil => intro nm; simp [nestedMap.getSegs, badIntermediate]
  | cons s rest ih =>
    intro nm
    cases rest with
    | nil =>
      cases h : lookupKey nm s <;> simp [nestedMap.getSegs, badIntermediate, h]
    | cons s2 rest2 =>
      cases h : lookupKey nm s with
      | none => simp [nestedMap.getSegs, badIntermediate, h]
      | some v => cases v <;> simp [nestedMap.getSegs, badIntermediate, h, ih]

theorem getSegs_absent : ∀ (segs : List String) (nm : NestedMap),
    absentIntermediate nm segs = true →
      nestedMap.getSegs nm segs = some (.vnull, false) := by
  intro segs
  induction segs with
  | nil => intro nm h; simp [absentIntermediate] at h
  | cons s rest ih =>
    intro nm h
    cases rest with
    | nil => simp [absentIntermediate] at h
    | cons s2 rest2 =>
      cases hl : lookupKey nm s with
      | none => simp [nestedMap.getSegs, hl]
      | some v =>
        cases v <;> simp [absentIntermediate, hl] at h
        simp [nestedMap.getSegs, hl]
        exact ih _ h

theorem lookupKey_insertKey_self : ∀ (nm : NestedMap) (k : String) (v : JValue),
    lookupKey (insertKey nm k v) k = some v := by
  intro nm k v
  induction nm with
  | nil => simp [insertKey, lookupKey]
  | cons p rest ih =>
    obtain ⟨k2, v2⟩ := p
    by_cases h : k2 = k <;> simp [insertKey, lookupKey, h, ih]

theorem setSegs_get : ∀ (segs : List String) (nm nm2 : NestedMap) (v : JValue),
    segs ≠ [] → nestedMap.setSegs nm segs v = some nm2 →
      nestedMap.getSegs nm2 segs = some (v, true) := by
  intro segs
  induction segs with
  | nil => intro nm nm2 v hne; exact absurd rfl hne
  | cons s rest ih =>
    intro nm nm2 v _ hset
    cases rest with
    | nil =>
      simp [nestedMap.setSegs] at hset
      subst hset
      simp [nestedMap.getSegs, lookupKey_insertKey_self]
    | cons s2 rest2 =>
      rw [show nestedMap.setSegs nm (s :: s2 :: rest2) v =
            (match lookupKey nm s with
             | some (.map m) =>
               (nestedMap.setSegs m (s2 :: rest2) v).map
                 (fun m2 => insertKey nm s (.map m2))
             | some _ => none
             | none =>
               (nestedMap.setSegs [] (s2 :: rest2) v).map
                 (fun m2 => insertKey nm s (.map m2))) from rfl] at hset
      cases hl : lookupKey nm s with
      | none =>
        rw [hl] at hset
        obtain ⟨m2, hm2, hnm2⟩ := Option.map_eq_some'.mp hset
        subst hnm2
        have hg := ih [] m2 v (by simp) hm2
        simp [nestedMap.getSegs, lookupKey_insertKey_self, hg]
      | some w =>
        rw [hl] at hset
        cases w with
        | map m =>
          obtain ⟨m2, hm2, hnm2⟩ := Option.map_eq_some'.mp hset
          subst hnm2
          have hg := ih m m2 v (by simp) hm2
          simp [nestedMap.getSegs, lookupKey_insertKey_self, hg]
        | str s3 => exact Option.noConfusion hset
        | bool b => exact Option.noConfusion hset
        | certs l => exact Option.noConfusion hset
        | vnull => exact Option.noConfusion hset

theorem setSegs_eq_none_iff : ∀ (segs : List String) (nm : NestedMap) (v : JValue),
    nestedMap.setSegs nm segs v = none ↔ badIntermediate nm segs = true := by
  intro segs
  induction segs with
  | nil => intro nm v; simp [nestedMap.setSegs, badIntermediate]
  | cons s rest ih =>
    intro nm v
    cases rest with
    | nil => simp [nestedMap.setSegs, badIntermediate]
    | cons s2 rest2 =>
      rw [show nestedMap.setSegs nm (s :: s2 :: rest2) v =
            (match lookupKey nm s with
             | some (.map m) =>
               (nestedMap.setSegs m (s2 :: rest2) v).map
                 (fun m2 => insertKey nm s (.map m2))
             | some _ => none
             | none =>
               (nestedMap.setSegs [] (s2 :: rest2) v).map
                 (fun m2 => insertKey nm s (.map m2))) from rfl]
      cases hl : lookupKey nm s with
      | none =>
        simp [badIntermediate, hl, Option.map_eq_none', ih, badIntermediate_nil]
      | some w =>
        cases w <;> simp [badIntermediate, hl, Option.map_eq_none', ih]

theorem splitChar_ne_nil : ∀ (sep : Char) (s : String), splitChar sep s ≠ [] := by
  intro sep s
  unfold splitChar
  cases h : splitCharList sep s.data with
  | nil =>
    exfalso
    revert h
    induction s.data with
    | nil => simp [splitCharList]
    | cons c rest ih =>
      intro h
      rw [show splitCharList sep (c :: rest) =
            (let r := splitCharList sep rest
             if c = sep then [] :: r
             else
               match r with
               | [] => [[c]]
               | h :: t => (c :: h) :: t) from rfl] at h
      by_cases hc : c = sep
      · simp [hc] at h
      · simp only [hc, if_false] at h
        cases hr : splitCharList sep rest <;> simp [hr] at h
  | cons a l => simp

theorem chkOptionalString_eq (p : NestedMap) (key : String) (e : AuthError)
    (v : String) (ok : Bool) (h : nestedMap.GetString p key = some (v, ok)) :
    chkOptionalString p key e = if ok && v == "" then some e else none := by
  cases ok <;> by_cases hv : v == "" <;> simp [chkOptionalString, h, hv]

theorem chkOptionalURL_eq (p : NestedMap) (key : String) (e1 e2 : AuthError)
    (v : String) (ok : Bool) (h : nestedMap.GetString p key = some (v, ok)) :
    chkOptionalURL p key e1 e2 =
      if ok && v == "" then some e1
      else if ok && !(parseRequestURI v) then some e2
      else none := by
  cases ok <;> by_cases hv : v == "" <;> by_cases hp : parseRequestURI v <;>
    simp [chkOptionalURL, h, hv, hp]

theorem chkOptionalCerts_absent (p : NestedMap) (cv : JValue)
    (h : nestedMap.Get p idpCertsKey = some (cv, false)) :
    chkOptionalCerts p = none := by
  cases cv <;> simp [chkOptionalCerts, h]

theorem chkOptionalCerts_present (p : NestedMap) (l : List idpCertificate)
    (h : nestedMap.Get p idpCertsKey = some (.certs l, true)) :
    chkOptionalCerts p =
      if l.length = 0 then some .certsEmpty
      else if l.any (fun cert => cert.x509Certificate == "") then some .certsContainEmpty
      else none := by
  simp [chkOptionalCerts, h]

theorem updateSPAndCallback_eq (p : NestedMap) (v3 v4 : String) (ok3 ok4 : Bool)
    (h3 : nestedMap.GetString p spEntityIDKey = some (v3, ok3))
    (h4 : nestedMap.GetString p callbackURIKey = some (v4, ok4)) :
    updateSPAndCallback p =
      some (match firstFailure
        [if ok3 && v3 == "" then some .rpEntityIDEmpty else none,
         if ok4 && v4 == "" then some .callbackURLEmpty
         else if ok4 && !(parseRequestURI v4) then some .callbackURLParse
         else none] with
      | some e => .error e
      | none => .ok p) := by
  simp only [updateSPAndCallback]
  rw [h3, h4]
  by_cases hc3 : ok3 && v3 == ""
  case pos => simp [hc3, firstFailure]
  by_cases hc4a : ok4 && v4 == ""
  case pos => simp [hc3, hc4a, firstFailure]
  by_cases hc4b : ok4 && !(parseRequestURI v4)
  case pos => simp [hc3, hc4a, hc4b, firstFailure]
  simp [hc3, hc4a, hc4b, firstFailure]

theorem lookupKey_insertKey : ∀ (nm : NestedMap) (k k2 : String) (v : JValue),
    lookupKey (insertKey nm k v) k2 = if k = k2 then some v else lookupKey nm k2 := by
  intro nm k k2 v
  induction nm with
  | nil => simp [insertKey, lookupKey]
  | cons q rest ih =>
    obtain ⟨ka, va⟩ := q
    by_cases h1 : ka = k
    · subst h1
      by_cases h2 : ka = k2 <;> simp [insertKey, lookupKey, h2]
    · by_cases h2 : ka = k2
      · subst h2
        have h1s : k ≠ ka := Ne.symm h1
        simp [insertKey, lookupKey, h1, h1s]
      · simp [insertKey, lookupKey, h1, h2, ih]

theorem getSegs_pair (p : NestedMap) (outer inner : String) :
    nestedMap.getSegs p [outer, inner] =
      match lookupKey p outer with
      | some (.map m) =>
          (match lookupKey m inner with
           | some v => some (v, true)
           | none => some (.vnull, false))
      | some _ => none
      | none => some (.vnull, false) := by
  cases hl : lookupKey p outer with
  | none => simp [nestedMap.getSegs, hl]
  | some w =>
    cases w
    case map m =>
      cases hl2 : lookupKey m inner <;> simp [nestedMap.getSegs, hl, hl2]
    all_goals simp [nestedMap.getSegs, hl]

theorem setSegs_pair (p : NestedMap) (outer inner : String) (v : JValue)
    (h : ∀ w, lookupKey p outer = some w → ∃ m, w = JValue.map m) :
    ∃ m2, nestedMap.setSegs p [outer, inner] v =
        some (insertKey p outer (.map m2)) ∧
      ∀ k2, lookupKey m2 k2 =
        (if inner = k2 then some v
         else
           match lookupKey p outer with
           | some (.map m) => lookupKey m k2
           | _ => none) := by
  cases hl : lookupKey p outer with
  | none =>
    refine ⟨insertKey [] inner v, by simp [nestedMap.setSegs, hl], fun k2 => ?_⟩
    rw [lookupKey_insertKey]
    simp [lookupKey]
  | some w =>
    obtain ⟨m, rfl⟩ := h w hl
    refine ⟨insertKey m inner v, by simp [nestedMap.setSegs, hl], fun k2 => ?_⟩
    rw [lookupKey_insertKey]

theorem WFParams_empty : WFParams [] :=
  ⟨fun v hv => by simp [lookupKey] at hv, fun v hv => by simp [lookupKey] at hv⟩

theorem WFParams_readsOK (p : NestedMap) (hp : WFParams p) : ReadsOK p := by
  obtain ⟨hidp, hsp⟩ := hp
  have hstr : ∀ (key outer inner : String),
      splitChar '.' key = [outer, inner] →
      (∀ w, lookupKey p outer = some w →
        ∃ m, w = JValue.map m ∧ ∀ v, lookupKey m inner = some v → ∃ s, v = JValue.str s) →
      ∃ r, nestedMap.GetString p key = some r := by
    intro key outer inner hsplit hout
    simp only [nestedMap.GetString, nestedMap.Get, hsplit]
    cases hl : lookupKey p outer with
    | none =>
      rw [getSegs_pair, hl]
      exact ⟨("", false), rfl⟩
    | some w =>
      obtain ⟨m, rfl, hm⟩ := hout w hl
      cases hl2 : lookupKey m inner with
      | none =>
        rw [getSegs_pair, hl]
        simp [hl2]
      | some v =>
        obtain ⟨s, rfl⟩ := hm v hl2
        rw [getSegs_pair, hl]
        simp [hl2]
  refine ⟨?_, ?_, ?_, ?_, ?_⟩
  · exact hstr idpEntityIDKey "idpConfig" "idpEntityId" rfl
      (fun w hw => (hidp w hw).imp fun m hm => ⟨hm.1, hm.2.1⟩)
  · exact hstr ssoURLKey "idpConfig" "ssoUrl" rfl
      (fun w hw => (hidp w hw).imp fun m hm => ⟨hm.1, hm.2.2.1⟩)
  · exact hstr spEntityIDKey "spConfig" "spEntityId" rfl
      (fun w hw => (hsp w hw).imp fun m hm => ⟨hm.1, hm.2.1⟩)
  · exact hstr callbackURIKey "spConfig" "callbackUri" rfl
      (fun w hw => (hsp w hw).imp fun m hm => ⟨hm.1, hm.2.2⟩)
  · simp only [nestedMap.Get,
      show splitChar '.' idpCertsKey = ["idpConfig", "idpCertificates"] from rfl]
    cases hl : lookupKey p "idpConfig" with
    | none =>
      rw [getSegs_pair, hl]
      exact ⟨.vnull, false, rfl, by simp⟩
    | some w =>
      obtain ⟨m, rfl, hm⟩ := hidp w hl
      cases hl2 : lookupKey m "idpCertificates" with
      | none =>
        rw [getSegs_pair, hl]
        refine ⟨.vnull, false, ?_, by simp⟩
        simp [hl2]
      | some v =>
        obtain ⟨l, rfl⟩ := hm.2.2 v hl2
        rw [getSegs_pair, hl]
        refine ⟨.certs l, true, ?_, fun _ => ⟨l, rfl⟩⟩
        simp [hl2]

theorem WFParams_set_idp (p : NestedMap) (inner : String) (v : JValue)
    (hp : WFParams p)
    (h1 : inner = "idpEntityId" → ∃ s, v = JValue.str s)
    (h2 : inner = "ssoUrl" → ∃ s, v = JValue.str s)
    (h3 : inner = "idpCertificates" → ∃ l, v = JValue.certs l) :
    ∀ p2, nestedMap.setSegs p ["idpConfig", inner] v = some p2 → WFParams p2 := by
  intro p2 hset
  obtain ⟨m2, hs2, hm2⟩ := setSegs_pair p "idpConfig" inner v
    (fun w hw => ((hp.1 w hw).imp fun m hm => hm.1))
  rw [hs2] at hset
  obtain rfl := Option.some.inj hset
  constructor
  · intro w hw
    rw [lookupKey_insertKey, if_pos rfl] at hw
    obtain rfl : JValue.map m2 = w := Option.some.inj hw
    have hcomp : ∀ (k0 : String) (typed : JValue → Prop),
        (inner = k0 → typed v) →
        (∀ m0, WFIdpMap m0 → ∀ w2, lookupKey m0 k0 = some w2 → typed w2) →
        ∀ w2, lookupKey m2 k0 = some w2 → typed w2 := by
      intro k0 typed htv hold w2 hw2
      rw [hm2] at hw2
      by_cases hik : inner = k0
      · rw [if_pos hik] at hw2
        obtain rfl := Option.some.inj hw2
        exact htv hik
      · rw [if_neg hik] at hw2
        cases hl : lookupKey p "idpConfig" with
        | none =>
          rw [hl] at hw2
          exact Option.noConfusion hw2
        | some w0 =>
          rw [hl] at hw2
          obtain ⟨m0, rfl, hm0⟩ := hp.1 w0 hl
          exact hold m0 hm0 w2 hw2
    refine ⟨m2, rfl, ?_, ?_, ?_⟩
    · exact hcomp "idpEntityId" _ h1 (fun m0 hm0 => hm0.1)
    · exact hcomp "ssoUrl" _ h2 (fun m0 hm0 => hm0.2.1)
    · exact hcomp "idpCertificates" _ h3 (fun m0 hm0 => hm0.2.2)
  · intro w hw
    rw [lookupKey_insertKey, if_neg (by decide : "idpConfig" ≠ "spConfig")] at hw
    exact hp.2 w hw

theorem WFParams_set_sp (p : NestedMap) (inner : String) (v : JValue)
    (hp : WFParams p)
    (h1 : inner = "spEntityId" → ∃ s, v = JValue.str s)
    (h2 : inner = "callbackUri" → ∃ s, v = JValue.str s) :
    ∀ p2, nestedMap.setSegs p ["spConfig", inner] v = some p2 → WFParams p2 := by
  intro p2 hset
  obtain ⟨m2, hs2, hm2⟩ := setSegs_pair p "spConfig" inner v
    (fun w hw => ((hp.2 w hw).imp fun m hm => hm.1))
  rw [hs2] at hset
  obtain rfl := Option.some.inj hset
  constructor
  · intro w hw
    rw [lookupKey_insertKey, if_neg (by decide : "spConfig" ≠ "idpConfig")] at hw
    exact hp.1 w hw
  · intro w hw
    rw [lookupKey_insertKey, if_pos rfl] at hw
    obtain rfl : JValue.map m2 = w := Option.some.inj hw
    have hcomp : ∀ (k0 : String) (typed : JValue → Prop),
        (inner = k0 → typed v) →
        (∀ m0, WFSpMap m0 → ∀ w2, lookupKey m0 k0 = some w2 → typed w2) →
        ∀ w2, lookupKey m2 k0 = some w2 → typed w2 := by
      intro k0 typed htv hold w2 hw2
      rw [hm2] at hw2
      by_cases hik : inner = k0
      · rw [if_pos hik] at hw2
        obtain rfl := Option.some.inj hw2
        exact htv hik
      · rw [if_neg hik] at hw2
        cases hl : lookupKey p "spConfig" with
        | none =>
          rw [hl] at hw2
          exact Option.noConfusion hw2
        | some w0 =>
          rw [hl] at hw2
          obtain ⟨m0, rfl, hm0⟩ := hp.2 w0 hl
          exact hold m0 hm0 w2 hw2
    refine ⟨m2, rfl, ?_, ?_⟩
    · exact hcomp "spEntityId" _ h1 (fun m0 hm0 => hm0.1)
    · exact hcomp "callbackUri" _ h2 (fun m0 hm0 => hm0.2)

theorem WFParams_insert_top (p : NestedMap) (k : String) (v : JValue)
    (hp : WFParams p) (hk1 : k ≠ "idpConfig") (hk2 : k ≠ "spConfig") :
    WFParams (insertKey p k v) := by
  constructor
  · intro w hw
    rw [lookupKey_insertKey, if_neg hk1] at hw
    exact hp.1 w hw
  · intro w hw
    rw [lookupKey_insertKey, if_neg hk2] at hw
    exact hp.2 w hw

theorem WFParams_Set (p : NestedMap) (key : String) (v : JValue) (hp : WFParams p)
    (hkey :
      (key = idpEntityIDKey ∧ ∃ s, v = JValue.str s) ∨
      (key = ssoURLKey ∧ ∃ s, v = JValue.str s) ∨
      (key = signRequestKey ∧ ∃ b, v = JValue.bool b) ∨
      (key = idpCertsKey ∧ ∃ l, v = JValue.certs l) ∨
      (key = spEntityIDKey ∧ ∃ s, v = JValue.str s) ∨
      (key = callbackURIKey ∧ ∃ s, v = JValue.str s) ∨
      key = displayNameKey ∨ key = enabledKey) :
    ∀ p2, nestedMap.Set p key v = some p2 → WFParams p2 := by
  intro p2 hset
  rcases hkey with ⟨rfl, s, rfl⟩ | ⟨rfl, s, rfl⟩ | ⟨rfl, b, rfl⟩ | ⟨rfl, l, rfl⟩ |
    ⟨rfl, s, rfl⟩ | ⟨rfl, s, rfl⟩ | rfl | rfl
  · exact WFParams_set_idp p "idpEntityId" _ hp (fun _ => ⟨s, rfl⟩)
      (fun hcon => absurd hcon (by decide)) (fun hcon => absurd hcon (by decide)) p2 hset
  · exact WFParams_set_idp p "ssoUrl" _ hp (fun hcon => absurd hcon (by decide))
      (fun _ => ⟨s, rfl⟩) (fun hcon => absurd hcon (by decide)) p2 hset
  · exact WFParams_set_idp p "signRequest" _ hp (fun hcon => absurd hcon (by decide))
      (fun hcon => absurd hcon (by decide)) (fun hcon => absurd hcon (by decide)) p2 hset
  · exact WFParams_set_idp p "idpCertificates" _ hp (fun hcon => absurd hcon (by decide))
      (fun hcon => absurd hcon (by decide)) (fun _ => ⟨l, rfl⟩) p2 hset
  · exact WFParams_set_sp p "spEntityId" _ hp (fun _ => ⟨s, rfl⟩)
      (fun hcon => absurd hcon (by decide)) p2 hset
  · exact WFParams_set_sp p "callbackUri" _ hp (fun hcon => absurd hcon (by decide))
      (fun _ => ⟨s, rfl⟩) p2 hset
  · obtain rfl := Option.some.inj hset
    exact WFParams_insert_top p "displayName" v hp (by decide) (by decide)
  · obtain rfl := Option.some.inj hset
    exact WFParams_insert_top p "enabled" v hp (by decide) (by decide)

theorem reachableCreate_wf : ∀ c, ReachableCreate c → WFParams c.params := by
  intro c h
  induction h with
  | init => exact WFParams_empty
  | setID c id hr ih => exact ih
  | setIDPEntityID c c2 s hr hset ih =>
    simp only [SAMLProviderConfigToCreate.IDPEntityID,
      SAMLProviderConfigToCreate.set] at hset
    obtain ⟨p2, hs2, heq⟩ := Option.map_eq_some'.mp hset
    subst heq
    exact WFParams_Set c.params idpEntityIDKey _ ih (Or.inl ⟨rfl, s, rfl⟩) p2 hs2
  | setSSOURL c c2 s hr hset ih =>
    simp only [SAMLProviderConfigToCreate.SSOURL,
      SAMLProviderConfigToCreate.set] at hset
    obtain ⟨p2, hs2, heq⟩ := Option.map_eq_some'.mp hset
    subst heq
    exact WFParams_Set c.params ssoURLKey _ ih (Or.inr (Or.inl ⟨rfl, s, rfl⟩)) p2 hs2
  | setRequestSigningEnabled c c2 b hr hset ih =>
    simp only [SAMLProviderConfigToCreate.RequestSigningEnabled,
      SAMLProviderConfigToCreate.set] at hset
    obtain ⟨p2, hs2, heq⟩ := Option.map_eq_some'.mp hset
    subst heq
    exact WFParams_Set c.params signRequestKey _ ih
      (Or.inr (Or.inr (Or.inl ⟨rfl, b, rfl⟩))) p2 hs2
  | setX509Certificates c c2 certs hr hset ih =>
    simp only [SAMLProviderConfigToCreate.X509Certificates,
      SAMLProviderConfigToCreate.set] at hset
    obtain ⟨p2, hs2, heq⟩ := Option.map_eq_some'.mp hset
    subst heq
    exact WFParams_Set c.params idpCertsKey _ ih
      (Or.inr (Or.inr (Or.inr (Or.inl ⟨rfl, certs.map idpCertificate.mk, rfl⟩)))) p2 hs2
  | setRPEntityID c c2 s hr hset ih =>
    simp only [SAMLProviderConfigToCreate.RPEntityID,
      SAMLProviderConfigToCreate.set] at hset
    obtain ⟨p2, hs2, heq⟩ := Option.map_eq_some'.mp hset
    subst heq
    exact WFParams_Set c.params spEntityIDKey _ ih
      (Or.inr (Or.inr (Or.inr (Or.inr (Or.inl ⟨rfl, s, rfl⟩))))) p2 hs2
  | setCallbackURL c c2 s hr hset ih =>
    simp only [SAMLProviderConfigToCreate.CallbackURL,
      SAMLProviderConfigToCreate.set] at hset
    obtain ⟨p2, hs2, heq⟩ := Option.map_eq_some'.mp hset
    subst heq
    exact WFParams_Set c.params callbackURIKey _ ih
      (Or.inr (Or.inr (Or.inr (Or.inr (Or.inr (Or.inl ⟨rfl, s, rfl⟩)))))) p2 hs2
  | setDisplayName c c2 s hr hset ih =>
    simp only [SAMLProviderConfigToCreate.DisplayName,
      SAMLProviderConfigToCreate.set] at hset
    obtain ⟨p2, hs2, heq⟩ := Option.map_eq_some'.mp hset
    subst heq
    exact WFParams_Set c.params displayNameKey _ ih
      (Or.inr (Or.inr (Or.inr (Or.inr (Or.inr (Or.inr (Or.inl rfl))))))) p2 hs2
  | setEnabled c c2 b hr hset ih =>
    simp only [SAMLProviderConfigToCreate.Enabled,
      SAMLProviderConfigToCreate.set] at hset
    obtain ⟨p2, hs2, heq⟩ := Option.map_eq_some'.mp hset
    subst heq
    exact WFParams_Set c.params enabledKey _ ih
      (Or.inr (Or.inr (Or.inr (Or.inr (Or.inr (Or.inr (Or.inr rfl))))))) p2 hs2

theorem reachableUpdate_wf : ∀ c, ReachableUpdate c → WFParams c.params := by
  intro c h
  induction h with
  | init => exact WFParams_empty
  | setIDPEntityID c c2 s hr hset ih =>
    simp only [SAMLProviderConfigToUpdate.IDPEntityID,
      SAMLProviderConfigToUpdate.set] at hset
    obtain ⟨p2, hs2, heq⟩ := Option.map_eq_some'.mp hset
    subst heq
    exact WFParams_Set c.params idpEntityIDKey _ ih (Or.inl ⟨rfl, s, rfl⟩) p2 hs2
  | setSSOURL c c2 s hr hset ih =>
    simp only [SAMLProviderConfigToUpdate.SSOURL,
      SAMLProviderConfigToUpdate.set] at hset
    obtain ⟨p2, hs2, heq⟩ := Option.map_eq_some'.mp hset
    subst heq
    exact WFParams_Set c.params ssoURLKey _ ih (Or.inr (Or.inl ⟨rfl, s, rfl⟩)) p2 hs2
  | setRequestSigningEnabled c c2 b hr hset ih =>
    simp only [SAMLProviderConfigToUpdate.RequestSigningEnabled,
      SAMLProviderConfigToUpdate.set] at hset
    obtain ⟨p2, hs2, heq⟩ := Option.map_eq_some'.mp hset
    subst heq
    exact WFParams_Set c.params signRequestKey _ ih
      (Or.inr (Or.inr (Or.inl ⟨rfl, b, rfl⟩))) p2 hs2
  | setX509Certificates c c2 certs hr hset ih =>
    simp only [SAMLProviderConfigToUpdate.X509Certificates,
      SAMLProviderConfigToUpdate.set] at hset
    obtain ⟨p2, hs2, heq⟩ := Option.map_eq_some'.mp hset
    subst heq
    exact WFParams_Set c.params idpCertsKey _ ih
      (Or.inr (Or.inr (Or.inr (Or.inl ⟨rfl, certs.map idpCertificate.mk, rfl⟩)))) p2 hs2
  | setRPEntityID c c2 s hr hset ih =>
    simp only [SAMLProviderConfigToUpdate.RPEntityID,
      SAMLProviderConfigToUpdate.set] at hset
    obtain ⟨p2, hs2, heq⟩ := Option.map_eq_some'.mp hset
    subst heq
    exact WFParams_Set c.params spEntityIDKey _ ih
      (Or.inr (Or.inr (Or.inr (Or.inr (Or.inl ⟨rfl, s, rfl⟩))))) p2 hs2
  | setCallbackURL c c2 s hr hset ih =>
    simp only [SAMLProviderConfigToUpdate.CallbackURL,
      SAMLProviderConfigToUpdate.set] at hset
    obtain ⟨p2, hs2, heq⟩ := Option.map_eq_some'.mp hset
    subst heq
    exact WFParams_Set c.params callbackURIKey _ ih
      (Or.inr (Or.inr (Or.inr (Or.inr (Or.inr (Or.inl ⟨rfl, s, rfl⟩)))))) p2 hs2
  | setDisplayName c c2 s hr hset ih =>
    simp only [SAMLProviderConfigToUpdate.DisplayName,
      SAMLProviderConfigToUpdate.set] at hset
    obtain ⟨p2, hs2, heq⟩ := Option.map_eq_some'.mp hset
    subst heq
    exact WFParams_Set c.params displayNameKey _ ih
      (Or.inr (Or.inr (Or.inr (Or.inr (Or.inr (Or.inr (Or.inl rfl))))))) p2 hs2
  | setEnabled c c2 b hr hset ih =>
    simp only [SAMLProviderConfigToUpdate.Enabled,
      SAMLProviderConfigToUpdate.set] at hset
    obtain ⟨p2, hs2, heq⟩ := Option.map_eq_some'.mp hset
    subst heq
    exact WFParams_Set c.params enabledKey _ ih
      (Or.inr (Or.inr (Or.inr (Or.inr (Or.inr (Or.inr (Or.inr rfl))))))) p2 hs2

/-! ### Claim theorems -/

/-- Claim C1, counterexample to the claim as stated: on the store that binds
the top-level key "a" to the string "v", `Get("a.b")` does not signal
absence — the intermediate segment "a" is bound to a non-map value, the type
assertion `val.(map[string]interface{})` fails, and the call panics (the
embedding's `none`), contradicting "returns 'not found' … without erroring
or crashing … never panics". -/
theorem claim_C1_counterexample :
    nestedMap.Get [("a", JValue.str "v")] "a.b" = none := rfl

/-- Claim C1 as amended: `Get` returns "not found" (value nil, ok false)
whenever the walk reaches an absent intermediate segment, and it never
panics as long as every present intermediate value along the path is a
nested map; but when a present intermediate segment is bound to a value
that is not a nested map, `Get` panics on a failed type assertion (the
`none` result) instead of signaling absence — and those are exactly the
panic cases. -/
theorem claim_C1_get_absent_not_found_panic_on_nonmap :
    (∀ (nm : NestedMap) (key : String),
      absentIntermediate nm (splitChar '.' key) = true →
        nestedMap.Get nm key = some (.vnull, false)) ∧
    (∀ (nm : NestedMap) (key : String),
      nestedMap.Get nm key = none ↔
        badIntermediate nm (splitChar '.' key) = true) := by
  constructor
  · intro nm key h
    exact getSegs_absent _ nm h
  · intro nm key
    exact getSegs_eq_none_iff _ nm

/-- Claim C6, counterexample to the claim as stated: on the store that binds
"a" to the string "x", `Set("a.b", v)` does not create or reuse an
intermediate map level — the type assertion `child.(map[string]interface{})`
fails and the call panics (the embedding's `none`), so no subsequent `Get`
can return the value. -/
theorem claim_C6_counterexample :
    nestedMap.Set [("a", JValue.str "x")] "a.b" (JValue.str "v") = none := rfl

/-- Claim C6 as amended: `Set` splits the path on '.', creates or reuses
each intermediate map level and sets the terminal segment — overwriting any
prior value — whenever no intermediate segment is currently bound to a
non-map value, and then a subsequent `Get` of the same path returns the
value with "found"; when an intermediate segment is bound to a non-map
value, `Set` panics on a failed type assertion instead (and those are
exactly the panic cases).  In particular `Set("a.b.c", v)` on the empty
store succeeds and `Get("a.b.c")` returns `v`. -/
theorem claim_C6_set_then_get :
    (∀ (nm nm2 : NestedMap) (key : String) (v : JValue),
      nestedMap.Set nm key v = some nm2 →
        nestedMap.Get nm2 key = some (v, true)) ∧
    (∀ (nm : NestedMap) (key : String) (v : JValue),
      nestedMap.Set nm key v = none ↔
        badIntermediate nm (splitChar '.' key) = true) ∧
    (nestedMap.Set [] "a.b.c" (.str "v") =
      some [("a", .map [("b", .map [("c", .str "v")])])] ∧
     nestedMap.Get [("a", .map [("b", .map [("c", .str "v")])])] "a.b.c" =
      some (.str "v", true)) := by
  refine ⟨?_, ?_, rfl, rfl⟩
  · intro nm nm2 key v hset
    exact setSegs_get _ nm nm2 v (splitChar_ne_nil '.' key) hset
  · intro nm key v
    exact setSegs_eq_none_iff _ nm v

/-- Claim C7: on the update builder, `DisplayName("")` stores the explicit
null marker under the display-name key — found by `Get` with ok = true,
unlike the untouched store where ok = false — the built request succeeds and
its mask contains the display-name entry, and `DisplayName` with a nonempty
string stores the string itself. -/
theorem claim_C7_displayname_empty_marker :
    (SAMLProviderConfigToUpdate.DisplayName ⟨[]⟩ "" = some ⟨displayNameOnlyParams⟩) ∧
    (nestedMap.Get displayNameOnlyParams displayNameKey = some (.vnull, true)) ∧
    (nestedMap.Get [] displayNameKey = some (.vnull, false)) ∧
    (SAMLProviderConfigToUpdate.buildRequest ⟨displayNameOnlyParams⟩ =
      some (.ok displayNameOnlyParams)) ∧
    (buildMask displayNameOnlyParams = [displayNameKey]) ∧
    (SAMLProviderConfigToUpdate.DisplayName ⟨[]⟩ "Hello" =
      some ⟨[("displayName", .str "Hello")]⟩) ∧
    (∀ c : SAMLProviderConfigToUpdate,
      c.DisplayName "" = c.set displayNameKey .vnull) ∧
    (∀ (c : SAMLProviderConfigToUpdate) (name : String), name ≠ "" →
      c.DisplayName name = c.set displayNameKey (.str name)) := by
  refine ⟨rfl, rfl, rfl, rfl, ?_, rfl, fun c => rfl, ?_⟩
  · simp [displayNameOnlyParams, displayNameKey, buildMask]
  · intro c name h
    have hb : (name == "") = false := beq_eq_false_iff_ne.mpr h
    simp [SAMLProviderConfigToUpdate.DisplayName, hb]

/-- Claim C8: mapping a decoded transfer object to the read model copies
display name, enabled flag, IDP entity id, SSO URL, signing flag, RP entity
id and callback URL unchanged, flattens the certificate objects into a
string list preserving order (a `List.map`), and sets the identifier to the
final '/'-segment of the resource name; in particular
"projects/p1/inboundSamlConfigs/saml.provider1" yields "saml.provider1". -/
theorem claim_C8_dao_to_read_model :
    (∀ dao : samlProviderConfigDAO,
      dao.toSAMLProviderConfig.displayName = dao.displayName ∧
      dao.toSAMLProviderConfig.enabled = dao.enabled ∧
      dao.toSAMLProviderConfig.idpEntityID = dao.idpConfig.idpEntityId ∧
      dao.toSAMLProviderConfig.ssoURL = dao.idpConfig.ssoUrl ∧
      dao.toSAMLProviderConfig.requestSigningEnabled = dao.idpConfig.signRequest ∧
      dao.toSAMLProviderConfig.rpEntityID = dao.spConfig.spEntityId ∧
      dao.toSAMLProviderConfig.callbackURL = dao.spConfig.callbackUri ∧
      dao.toSAMLProviderConfig.x509Certificates =
        dao.idpConfig.idpCertificates.map (fun cert => cert.x509Certificate) ∧
      dao.toSAMLProviderConfig.id = (splitChar '/' dao.name).getLastD "") ∧
    (extractResourceID "projects/p1/inboundSamlConfigs/saml.provider1" =
      "saml.provider1") ∧
    (exampleDAO.toSAMLProviderConfig =
      { id := "saml.provider1", displayName := "samlProviderName", enabled := true,
        idpEntityID := "IDP_ENTITY_ID", ssoURL := "https://example.com/login",
        requestSigningEnabled := true, x509Certificates := ["CERT1", "CERT2"],
        rpEntityID := "RP_ENTITY_ID", callbackURL := "https://example.com/callback" }) :=
  ⟨fun dao => ⟨rfl, rfl, rfl, rfl, rfl, rfl, rfl, rfl, rfl⟩, rfl, rfl⟩

/-- Claim C9: `X509Certificates` with an empty (or nil) slice stores the nil
certificate list under the certificates key on either builder; the key then
counts as present (`Get` finds it with ok = true), so `buildRequest` fails
with the "X509Certificates must not be empty" error — for the update builder
the empty list is rejected rather than treated as an untouched field. -/
theorem claim_C9_empty_certs_present_and_rejected :
    (SAMLProviderConfigToUpdate.X509Certificates ⟨[]⟩ [] =
      some ⟨emptyCertsOnlyParams⟩) ∧
    (nestedMap.Get emptyCertsOnlyParams idpCertsKey = some (.certs [], true)) ∧
    (SAMLProviderConfigToUpdate.buildRequest ⟨emptyCertsOnlyParams⟩ =
      some (.error .certsEmpty)) ∧
    (SAMLProviderConfigToCreate.X509Certificates ⟨"saml.provider", fullCreateParams⟩ [] =
      some ⟨"saml.provider", createParamsEmptyCerts⟩) ∧
    (SAMLProviderConfigToCreate.buildRequest ⟨"saml.provider", createParamsEmptyCerts⟩ =
      some (.error .certsEmpty)) ∧
    (AuthError.certsEmpty.message = "X509Certificates must not be empty") :=
  ⟨rfl, rfl, rfl, rfl, rfl, rfl⟩

/-- Claim C10: identifier validation checks only the "saml." prefix and
nothing about the remainder, so the bare identifier "saml." passes it and is
accepted by the local checks of all four client operations (each one
proceeds to hand a request to the transport). -/
theorem claim_C10_bare_saml_prefix_accepted :
    (validateSAMLConfigID "saml." = .ok ()) ∧
    (∀ id : String, validateSAMLConfigID id = .ok () ↔ hasPrefix id "saml." = true) ∧
    (∀ s : String, validateSAMLConfigID ("saml." ++ s) = .ok ()) ∧
    ((⟨providerConfigEndpoint, "p1"⟩ : providerConfigClient).SAMLProviderConfigLocal
        "saml." =
      .ok { method := "GET",
            url := "https://identitytoolkit.googleapis.com/v2beta1/projects/p1/inboundSamlConfigs/saml." }) ∧
    ((⟨providerConfigEndpoint, "p1"⟩ : providerConfigClient).DeleteSAMLProviderConfigLocal
        "saml." =
      .ok { method := "DELETE",
            url := "https://identitytoolkit.googleapis.com/v2beta1/projects/p1/inboundSamlConfigs/saml." }) ∧
    ((⟨providerConfigEndpoint, "p1"⟩ : providerConfigClient).UpdateSAMLProviderConfigLocal
        "saml." ⟨signOnlyParams⟩ =
      some (.ok
        { method := "PATCH",
          url := "https://identitytoolkit.googleapis.com/v2beta1/projects/p1/inboundSamlConfigs/saml.",
          body := some signOnlyParams,
          query := [("updateMask", "idpConfig.signRequest")] })) ∧
    ((⟨providerConfigEndpoint, "p1"⟩ : providerConfigClient).CreateSAMLProviderConfigLocal
        ⟨"saml.", fullCreateParams⟩ =
      some (.ok
        { method := "POST",
          url := "https://identitytoolkit.googleapis.com/v2beta1/projects/p1/inboundSamlConfigs",
          body := some fullCreateParams,
          query := [("inboundSamlConfigId", "saml.")] })) := by
  have hmask : buildMask signOnlyParams = ["idpConfig.signRequest"] := by
    simp [signOnlyParams, buildMask]
  refine ⟨rfl, ?_, ?_, rfl, rfl, ?_, rfl⟩
  · intro id
    unfold validateSAMLConfigID
    by_cases h : hasPrefix id "saml." <;> simp [h]
  · intro s
    have hp : hasPrefix ("saml." ++ s) "saml." = true := by
      simp [hasPrefix, String.data_append, List.isPrefixOf_iff_prefix,
        List.prefix_append]
    simp [validateSAMLConfigID, hp]
  · exact congrArg (fun mask =>
      (some (Except.ok
        { method := "PATCH",
          url := "https://identitytoolkit.googleapis.com/v2beta1/projects/p1/inboundSamlConfigs/saml.",
          body := some signOnlyParams,
          query := [("updateMask", String.intercalate "," mask)] }) :
        Option (Except AuthError HTTPRequest))) hmask

/-- Claim C4: for an identifier without the "saml." prefix, each of the four
client operations returns the invalid-SAML-provider-id error from its local
phase — no request is ever produced for the transport (for create, the id
set on the builder is checked first inside `buildRequest`). -/
theorem claim_C4_invalid_id_rejected_locally (cl : providerConfigClient) (id : String)
    (h : hasPrefix id "saml." = false) :
    cl.SAMLProviderConfigLocal id = .error (.invalidSAMLProviderID id) ∧
    cl.DeleteSAMLProviderConfigLocal id = .error (.invalidSAMLProviderID id) ∧
    (∀ cfg : SAMLProviderConfigToUpdate,
      cl.UpdateSAMLProviderConfigLocal id cfg = some (.error (.invalidSAMLProviderID id))) ∧
    (∀ cfg : SAMLProviderConfigToCreate, cfg.id = id →
      cl.CreateSAMLProviderConfigLocal cfg = some (.error (.invalidSAMLProviderID id))) := by
  have hv : validateSAMLConfigID id = .error (.invalidSAMLProviderID id) := by
    simp [validateSAMLConfigID, h]
  refine ⟨?_, ?_, ?_, ?_⟩
  · simp [providerConfigClient.SAMLProviderConfigLocal, hv]
  · simp [providerConfigClient.DeleteSAMLProviderConfigLocal, hv]
  · intro cfg
    simp [providerConfigClient.UpdateSAMLProviderConfigLocal, hv]
  · intro cfg hid
    simp [providerConfigClient.CreateSAMLProviderConfigLocal,
      SAMLProviderConfigToCreate.buildRequest, validateSAMLConfigID, hid, h]

/-- Claim C4, witness: the theorem applied to the concrete identifier "x"
(no "saml." prefix) with a concrete client and builders. -/
theorem claim_C4_invalid_id_rejected_locally_witness :
    (⟨providerConfigEndpoint, "p1"⟩ : providerConfigClient).SAMLProviderConfigLocal "x" =
        .error (.invalidSAMLProviderID "x") ∧
    (⟨providerConfigEndpoint, "p1"⟩ : providerConfigClient).DeleteSAMLProviderConfigLocal
        "x" = .error (.invalidSAMLProviderID "x") ∧
    (⟨providerConfigEndpoint, "p1"⟩ : providerConfigClient).UpdateSAMLProviderConfigLocal
        "x" ⟨[]⟩ = some (.error (.invalidSAMLProviderID "x")) ∧
    (⟨providerConfigEndpoint, "p1"⟩ : providerConfigClient).CreateSAMLProviderConfigLocal
        ⟨"x", []⟩ = some (.error (.invalidSAMLProviderID "x")) := by
  obtain ⟨h1, h2, h3, h4⟩ :=
    claim_C4_invalid_id_rejected_locally ⟨providerConfigEndpoint, "p1"⟩ "x" rfl
  exact ⟨h1, h2, h3 ⟨[]⟩, h4 ⟨"x", []⟩ rfl⟩

/-- Claim C2: create-request validation runs the seven checks in their fixed
source order with the first failure winning: for every builder whose five
store reads return without a panic, `buildRequest` equals the first failing
check of `createChecks` (or success returning the populated store and the
identifier), and every builder reachable through the public setters has
panic-free reads; with all required fields set and valid URLs it succeeds, and
omitting any one of entity id, SSO URL, certificates, RP entity id or
callback URL fails with the specific corresponding error message. -/
theorem claim_C2_create_validation_order_and_errors :
    (∀ c : SAMLProviderConfigToCreate, ReadsOK c.params →
      c.buildRequest = some (
        match firstFailure (createChecks c) with
        | some e => .error e
        | none => .ok (c.params, c.id))) ∧
    (∀ c : SAMLProviderConfigToCreate, ReachableCreate c → ReadsOK c.params) ∧
    (SAMLProviderConfigToCreate.buildRequest ⟨"saml.provider", fullCreateParams⟩ =
      some (.ok (fullCreateParams, "saml.provider"))) ∧
    (SAMLProviderConfigToCreate.buildRequest ⟨"saml.provider", createParamsNoIdpEntity⟩ =
      some (.error .idpEntityIDEmpty) ∧
     AuthError.idpEntityIDEmpty.message = "IDPEntityID must not be empty") ∧
    (SAMLProviderConfigToCreate.buildRequest ⟨"saml.provider", createParamsNoSSOURL⟩ =
      some (.error .ssoURLEmpty) ∧
     AuthError.ssoURLEmpty.message = "SSOURL must not be empty") ∧
    (SAMLProviderConfigToCreate.buildRequest ⟨"saml.provider", createParamsNoCerts⟩ =
      some (.error .certsEmpty) ∧
     AuthError.certsEmpty.message = "X509Certificates must not be empty") ∧
    (SAMLProviderConfigToCreate.buildRequest ⟨"saml.provider", createParamsNoRPEntity⟩ =
      some (.error .rpEntityIDEmpty) ∧
     AuthError.rpEntityIDEmpty.message = "RPEntityID must not be empty") ∧
    (SAMLProviderConfigToCreate.buildRequest ⟨"saml.provider", createParamsNoCallback⟩ =
      some (.error .callbackURLEmpty) ∧
     AuthError.callbackURLEmpty.message = "CallbackURL must not be empty") ∧
    (SAMLProviderConfigToCreate.buildRequest ⟨"", fullCreateParams⟩ =
      some (.error (.invalidSAMLProviderID "")) ∧
     SAMLProviderConfigToCreate.buildRequest ⟨"saml.provider", []⟩ =
      some (.error .noParamsCreate) ∧
     AuthError.noParamsCreate.message = "no parameters specified in the create request") := by
  refine ⟨?_, fun c h => WFParams_readsOK _ (reachableCreate_wf c h),
    rfl, ⟨rfl, rfl⟩, ⟨rfl, rfl⟩, ⟨rfl, rfl⟩, ⟨rfl, rfl⟩, ⟨rfl, rfl⟩,
    rfl, rfl, rfl⟩
  intro c h
  obtain ⟨⟨⟨v1, ok1⟩, h1⟩, ⟨⟨v2, ok2⟩, h2⟩, ⟨⟨v3, ok3⟩, h3⟩, ⟨⟨v4, ok4⟩, h4⟩,
    cv, cb, h5, h5t⟩ := h
  simp only [SAMLProviderConfigToCreate.buildRequest, validateSAMLConfigID,
    createChecks, chkCreateID, chkCreateNonEmpty, chkRequiredString,
    chkRequiredURL, chkRequiredCerts]
  rw [h1, h2, h3, h4, h5]
  by_cases hid : hasPrefix c.id "saml."
  case neg => simp [hid, firstFailure]
  by_cases hlen : c.params.length = 0
  case pos => simp [hid, hlen, firstFailure]
  cases ok1 with
  | false => simp [hid, hlen, firstFailure]
  | true =>
  by_cases hv1 : v1 == ""
  case pos => simp [hid, hlen, hv1, firstFailure]
  cases ok2 with
  | false => simp [hid, hlen, hv1, firstFailure]
  | true =>
  by_cases hv2 : v2 == ""
  case pos => simp [hid, hlen, hv1, hv2, firstFailure]
  by_cases hp2 : parseRequestURI v2
  case neg => simp [hid, hlen, hv1, hv2, hp2, firstFailure]
  cases cb with
  | false => cases cv <;> simp [hid, hlen, hv1, hv2, hp2, firstFailure]
  | true =>
  obtain ⟨l, rfl⟩ := h5t rfl
  by_cases hl : l.length = 0
  case pos => simp [hid, hlen, hv1, hv2, hp2, hl, firstFailure]
  by_cases hle : l.any (fun cert => cert.x509Certificate == "")
  case pos => simp [hid, hlen, hv1, hv2, hp2, hl, hle, firstFailure]
  cases ok3 with
  | false => simp [hid, hlen, hv1, hv2, hp2, hl, hle, firstFailure]
  | true =>
  by_cases hv3 : v3 == ""
  case pos => simp [hid, hlen, hv1, hv2, hp2, hl, hle, hv3, firstFailure]
  cases ok4 with
  | false => simp [hid, hlen, hv1, hv2, hp2, hl, hle, hv3, firstFailure]
  | true =>
  by_cases hv4 : v4 == ""
  case pos => simp [hid, hlen, hv1, hv2, hp2, hl, hle, hv3, hv4, firstFailure]
  by_cases hp4 : parseRequestURI v4
  case neg => simp [hid, hlen, hv1, hv2, hp2, hl, hle, hv3, hv4, hp4, firstFailure]
  simp [hid, hlen, hv1, hv2, hp2, hl, hle, hv3, hv4, hp4, firstFailure]

/-- Claim C3: update-request validation fails with the "no parameters
specified" error when no field was ever set; every other check runs only
when its field is present in the store: for every builder whose five store
reads return without a panic, `buildRequest` equals the first failing check
of `updateChecks`, each of which returns no error when its key is absent,
and every builder reachable through the public setters has panic-free reads;
and a builder on which only `RequestSigningEnabled` was set builds
successfully with an update mask of exactly ["idpConfig.signRequest"]. -/
theorem claim_C3_update_validation_conditional :
    (∀ c : SAMLProviderConfigToUpdate, ReadsOK c.params →
      c.buildRequest = some (
        match firstFailure (updateChecks c) with
        | some e => .error e
        | none => .ok c.params)) ∧
    (∀ c : SAMLProviderConfigToUpdate, ReachableUpdate c → ReadsOK c.params) ∧
    (SAMLProviderConfigToUpdate.buildRequest ⟨[]⟩ = some (.error .noParamsUpdate) ∧
     AuthError.noParamsUpdate.message = "no parameters specified in the update request") ∧
    (SAMLProviderConfigToUpdate.RequestSigningEnabled ⟨[]⟩ true =
        some ⟨signOnlyParams⟩ ∧
     SAMLProviderConfigToUpdate.buildRequest ⟨signOnlyParams⟩ =
        some (.ok signOnlyParams) ∧
     buildMask signOnlyParams = ["idpConfig.signRequest"]) := by
  refine ⟨?_, fun c h => WFParams_readsOK _ (reachableUpdate_wf c h),
    ⟨rfl, rfl⟩, rfl, rfl, ?_⟩
  · intro c h
    obtain ⟨⟨⟨v1, ok1⟩, h1⟩, ⟨⟨v2, ok2⟩, h2⟩, ⟨⟨v3, ok3⟩, h3⟩, ⟨⟨v4, ok4⟩, h4⟩,
      cv, cb, h5, h5t⟩ := h
    simp only [SAMLProviderConfigToUpdate.buildRequest, updateChecks, chkUpdateNonEmpty]
    rw [h1, h2, h5,
      chkOptionalString_eq _ _ _ _ _ h1, chkOptionalURL_eq _ _ _ _ _ _ h2,
      chkOptionalString_eq _ _ _ _ _ h3, chkOptionalURL_eq _ _ _ _ _ _ h4]
    by_cases hlen : c.params.length = 0
    case pos => simp [hlen, firstFailure]
    by_cases hc1 : ok1 && v1 == ""
    case pos => simp [hlen, hc1, firstFailure]
    by_cases hc2a : ok2 && v2 == ""
    case pos => simp [hlen, hc1, hc2a, firstFailure]
    by_cases hc2b : ok2 && !(parseRequestURI v2)
    case pos => simp [hlen, hc1, hc2a, hc2b, firstFailure]
    cases cb with
    | false =>
      rw [chkOptionalCerts_absent _ _ h5, updateSPAndCallback_eq _ _ _ _ _ h3 h4]
      simp [hlen, hc1, hc2a, hc2b, firstFailure]
    | true =>
      obtain ⟨l, rfl⟩ := h5t rfl
      rw [chkOptionalCerts_present _ _ h5]
      by_cases hl : l.length = 0
      case pos => simp [hlen, hc1, hc2a, hc2b, hl, firstFailure]
      by_cases hle : l.any (fun cert => cert.x509Certificate == "")
      case pos => simp [hlen, hc1, hc2a, hc2b, hl, hle, firstFailure]
      rw [updateSPAndCallback_eq _ _ _ _ _ h3 h4]
      simp [hlen, hc1, hc2a, hc2b, hl, hle, firstFailure]
  · simp [signOnlyParams, buildMask]

theorem lookupKey_eq_none_of_all_ne : ∀ (nm : NestedMap) (k : String),
    nm.all (fun p => p.1 != k) = true → lookupKey nm k = none := by
  intro nm k h
  induction nm with
  | nil => rfl
  | cons p rest ih =>
    obtain ⟨k2, v2⟩ := p
    simp only [List.all_cons, Bool.and_eq_true, bne_iff_ne, ne_eq] at h
    obtain ⟨hk2, hrest⟩ := h
    simp only [lookupKey, if_neg hk2]
    exact ih hrest

theorem isLeafPath_nil : ∀ segs : List String, isLeafPath [] segs = false := by
  intro segs
  cases segs with
  | nil => rfl
  | cons s rest => cases rest <;> simp [isLeafPath, lookupKey]

theorem joinDot_cons (s : String) (rest : List String) (h : rest ≠ []) :
    joinDot (s :: rest) = s ++ "." ++ joinDot rest := by
  cases rest with
  | nil => exact absurd rfl h
  | cons r rr => rfl

theorem nodupNested_cons_nonmap (k : String) (v : JValue) (rest : NestedMap)
    (hnm : ∀ child, v = JValue.map child → False) :
    nodupNested ((k, v) :: rest) =
      (rest.all (fun p => p.1 != k) && nodupNested rest) := by
  cases v
  case map m => exact (hnm m rfl).elim
  all_goals simp [nodupNested]

theorem buildMask_cons_nonmap (k : String) (v : JValue) (rest : NestedMap)
    (hnm : ∀ child, v = JValue.map child → False) :
    buildMask ((k, v) :: rest) = k :: buildMask rest := by
  cases v
  case map m => exact (hnm m rfl).elim
  all_goals simp [buildMask]

theorem isLeafPath_cons_ne (k : String) (v : JValue) (rest : NestedMap)
    (s : String) (r : List String) (hs : k ≠ s) :
    isLeafPath ((k, v) :: rest) (s :: r) = isLeafPath rest (s :: r) := by
  cases r <;> simp [isLeafPath, lookupKey, hs]

theorem isLeafPath_cons_self_nonmap (k : String) (v : JValue) (rest : NestedMap)
    (hnm : ∀ child, v = JValue.map child → False) :
    isLeafPath ((k, v) :: rest) [k] = true := by
  cases v
  case map m => exact (hnm m rfl).elim
  all_goals simp [isLeafPath, lookupKey]

theorem isLeafPath_cons_self_long_nonmap (k : String) (v : JValue) (rest : NestedMap)
    (r1 : String) (r2 : List String)
    (hnm : ∀ child, v = JValue.map child → False) :
    isLeafPath ((k, v) :: rest) (k :: r1 :: r2) = false := by
  cases v
  case map m => exact (hnm m rfl).elim
  all_goals simp [isLeafPath, lookupKey]

theorem buildMask_mem_iff : ∀ (nm : NestedMap), nodupNested nm = true →
    ∀ (path : String),
      path ∈ buildMask nm ↔
        ∃ segs, path = joinDot segs ∧ isLeafPath nm segs = true := by
  intro nm
  induction nm using buildMask.induct with
  | case1 =>
    intro _ path
    simp [buildMask, isLeafPath_nil]
  | case2 k child rest ihchild ihrest =>
    intro hnd path
    have hparts : rest.all (fun p => p.1 != k) = true ∧ nodupNested child = true ∧
        nodupNested rest = true := by
      simpa [nodupNested, Bool.and_eq_true, and_assoc] using hnd
    obtain ⟨hall, hndc, hndr⟩ := hparts
    have hlk : lookupKey rest k = none := lookupKey_eq_none_of_all_ne rest k hall
    rw [buildMask]
    constructor
    · intro hmem
      rcases List.mem_append.mp hmem with hm | hm
      · obtain ⟨item, hitem, rfl⟩ := List.mem_map.mp hm
        obtain ⟨segs2, rfl, hleaf⟩ := (ihchild hndc item).mp hitem
        have hne : segs2 ≠ [] := by
          intro hcon
          subst hcon
          simp [isLeafPath] at hleaf
        refine ⟨k :: segs2, (joinDot_cons k segs2 hne).symm, ?_⟩
        cases segs2 with
        | nil => exact absurd rfl hne
        | cons s2 r2 => simpa [isLeafPath, lookupKey] using hleaf
      · obtain ⟨segs, rfl, hleaf⟩ := (ihrest hndr path).mp hm
        refine ⟨segs, rfl, ?_⟩
        cases segs with
        | nil => simp [isLeafPath] at hleaf
        | cons s r =>
          by_cases hs : k = s
          · subst hs
            exfalso
            cases r with
            | nil => simp [isLeafPath, hlk] at hleaf
            | cons r1 r2 => simp [isLeafPath, hlk] at hleaf
          · cases r with
            | nil => simpa [isLeafPath, lookupKey, hs] using hleaf
            | cons r1 r2 => simpa [isLeafPath, lookupKey, hs] using hleaf
    · rintro ⟨segs, rfl, hleaf⟩
      rcases segs with _ | ⟨s, r⟩
      · simp [isLeafPath] at hleaf
      by_cases hs : k = s
      · subst hs
        cases r with
        | nil => simp [isLeafPath, lookupKey] at hleaf
        | cons r1 r2 =>
          have hleaf2 : isLeafPath child (r1 :: r2) = true := by
            simpa [isLeafPath, lookupKey] using hleaf
          refine List.mem_append.mpr (.inl (List.mem_map.mpr
            ⟨joinDot (r1 :: r2), (ihchild hndc _).mpr ⟨r1 :: r2, rfl, hleaf2⟩, ?_⟩))
          exact (joinDot_cons _ _ (by simp)).symm
      · have hleafr : isLeafPath rest (s :: r) = true := by
          cases r with
          | nil => simpa [isLeafPath, lookupKey, hs] using hleaf
          | cons r1 r2 => simpa [isLeafPath, lookupKey, hs] using hleaf
        exact List.mem_append.mpr (.inr ((ihrest hndr _).mpr ⟨s :: r, rfl, hleafr⟩))
  | case3 k v rest hnm ihrest =>
    intro hnd path
    rw [nodupNested_cons_nonmap k v rest hnm] at hnd
    simp only [Bool.and_eq_true] at hnd
    obtain ⟨hall, hndr⟩ := hnd
    have hlk : lookupKey rest k = none := lookupKey_eq_none_of_all_ne rest k hall
    rw [buildMask_cons_nonmap k v rest hnm]
    constructor
    · intro hmem
      rcases List.mem_cons.mp hmem with hm | hm
      · exact ⟨[k], hm, isLeafPath_cons_self_nonmap k v rest hnm⟩
      · obtain ⟨segs, rfl, hleaf⟩ := (ihrest hndr path).mp hm
        refine ⟨segs, rfl, ?_⟩
        cases segs with
        | nil => simp [isLeafPath] at hleaf
        | cons s r =>
          by_cases hs : k = s
          · subst hs
            exfalso
            cases r with
            | nil => simp [isLeafPath, hlk] at hleaf
            | cons r1 r2 => simp [isLeafPath, hlk] at hleaf
          · rw [isLeafPath_cons_ne k v rest s r hs]
            exact hleaf
    · rintro ⟨segs, rfl, hleaf⟩
      rcases segs with _ | ⟨s, r⟩
      · simp [isLeafPath] at hleaf
      by_cases hs : k = s
      · subst hs
        cases r with
        | nil => exact List.mem_cons.mpr (.inl rfl)
        | cons r1 r2 =>
          rw [isLeafPath_cons_self_long_nonmap k v rest r1 r2 hnm] at hleaf
          exact absurd hleaf (by simp)
      · rw [isLeafPath_cons_ne k v rest s r hs] at hleaf
        exact List.mem_cons.mpr (.inr ((ihrest hndr _).mpr ⟨s :: r, rfl, hleaf⟩))

/-- Claim C5: the update mask lists exactly the fully-qualified dotted paths
of the leaves present in the store — a path is in `buildMask` iff it is the
dot-join of a segment list addressing a stored non-map leaf — for every
store with the unique keys every Go map has; order is unspecified (Go map
iteration order), so the {x, a.b} example is compared as a set: the store
built by Set("x", ·) then Set("a.b", ·) has a mask equal, as a set, to
{"x", "a.b"}, with no leaf missing and no extra path. -/
theorem claim_C5_update_mask_leaves :
    (∀ nm : NestedMap, nodupNested nm = true → ∀ path : String,
      path ∈ buildMask nm ↔
        ∃ segs, path = joinDot segs ∧ isLeafPath nm segs = true) ∧
    (nestedMap.Set [] "x" (.str "1") = some [("x", .str "1")] ∧
     nestedMap.Set [("x", .str "1")] "a.b" (.str "2") =
       some [("x", .str "1"), ("a", .map [("b", .str "2")])] ∧
     nestedMap.UpdateMask [("x", .str "1"), ("a", .map [("b", .str "2")])] =
       .ok ["x", "a.b"] ∧
     (buildMask [("x", .str "1"), ("a", .map [("b", .str "2")])]).toFinset =
       ({"x", "a.b"} : Finset String)) := by
  refine ⟨buildMask_mem_iff, rfl, rfl, ?_, ?_⟩
  · simp [nestedMap.UpdateMask, buildMask]
  · simp [buildMask]

end FirebaseAuth
